import Mathlib

/-!
Shallow embedding of `src/components/CalendarMap.tsx` (CalendarMapApp).

The component is a React function component. Its data flow is embedded as
pure functions over explicit state:

* JS `Date` values are opaque instants, modelled as `Int`.
* `Calendar.Event` is `CalendarEvent`; the enriched type
  `Calendar.Event & { geoLocation: LatLng | null }` is `EventWithLocation`.
* The external services (`Calendar.getCalendarsAsync`, `Calendar.getEventsAsync`,
  `Geocoder.from`) are oracles passed in through `FetchEnv`; a JS `throw` is an
  `Except.error`, with `JsError` distinguishing `instanceof Error` values
  (which carry a `.message`) from arbitrary thrown values.
* Effects (alerts, console logs, geocoder invocations, the store query issued)
  are returned explicitly so theorems can speak about them.
-/

/-- JS `Date` instants, opaque for the purposes of this component. -/
abbrev JsDate := Int

/-- Coordinates as used by `react-native-maps` (`LatLng`). Numeric values are
opaque here (no arithmetic is done on them), modelled as `Int`. -/
structure LatLng where
  latitude : Int
  longitude : Int
  deriving Repr, DecidableEq

/-- The fields of `Calendar.Event` this component reads: `id`, `calendarId`,
`title` and the optional free-text `location`. A JS `string | null | undefined`
location is `Option String` (with `none` for null/undefined). -/
structure CalendarEvent where
  id : String
  calendarId : String
  title : String
  location : Option String
  deriving Repr, DecidableEq

/-- `type EventWithLocation = Calendar.Event & { geoLocation: LatLng | null }`. -/
structure EventWithLocation extends CalendarEvent where
  geoLocation : Option LatLng
  deriving Repr, DecidableEq

/-- JS truthiness of an optional string: `undefined`, `null` and `""` are
falsy, every non-empty string is truthy. -/
def strTruthy : Option String → Bool
  | none => false
  | some s => !s.isEmpty

/-- A thrown JS value: either an `Error` instance carrying a message, or any
other thrown value. -/
inductive JsError where
  | error (message : String)
  | other
  deriving Repr, DecidableEq

/-- `location` member of a geocoder result geometry: `{ lat, lng }`. -/
structure GeoLocked where
  lat : Int
  lng : Int
  deriving Repr, DecidableEq

/-- One geocoder candidate: `result.geometry.location`. -/
structure GeoResult where
  geometryLocation : GeoLocked
  deriving Repr, DecidableEq

/-- A `Geocoder.from` response: `{ results: [...] }`. -/
structure GeoResponse where
  results : List GeoResult
  deriving Repr, DecidableEq

/-- Outcome of one call to `getLocationFromAddress`: the resulting
coordinate (or null), the list of `Geocoder.from` invocations made, and
the `console.warn` entries emitted. -/
structure GeoLookup where
  geoLocation : Option LatLng
  calls : List String
  warns : List (String × String)
  deriving Repr, DecidableEq

/-- `getLocationFromAddress` (lines 119 to 128): one `Geocoder.from(address)`
call inside a try block; on success it reads `response.results[0].geometry.location`
and returns `{ latitude: location.lat, longitude: location.lng }`. Any throw —
a rejected geocoder promise, or the TypeError from `results[0]` being
`undefined` on an empty result list — is caught, a warning is logged, and
`null` is returned. -/
def getLocationFromAddress (geocoderFrom : String → Except JsError GeoResponse)
    (address : String) : GeoLookup :=
  match geocoderFrom address with
  | .error _ =>
      { geoLocation := none, calls := [address],
        warns := [("Error getting location from address:", address)] }
  | .ok response =>
      match response.results with
      | [] =>
          { geoLocation := none, calls := [address],
            warns := [("Error getting location from address:", address)] }
      | r :: _ =>
          { geoLocation := some { latitude := r.geometryLocation.lat,
                                  longitude := r.geometryLocation.lng },
            calls := [address], warns := [] }

/-- Outcome of enriching one event: the `EventWithLocation`, the geocoder
invocations made, and the warnings logged. -/
structure EnrichOut where
  enriched : EventWithLocation
  calls : List String
  warns : List (String × String)
  deriving Repr, DecidableEq

/-- The per-event arrow of `events.map` in `fetchCalendarEvents`
(lines 139 to 143): `if (!event.location) return { ...event, geoLocation: null }`
— both an absent and an empty location string are falsy — else geocode the
location and attach the result. -/
def enrichEvent (geocoderFrom : String → Except JsError GeoResponse)
    (event : CalendarEvent) : EnrichOut :=
  match event.location with
  | none => { enriched := { toCalendarEvent := event, geoLocation := none },
              calls := [], warns := [] }
  | some address =>
      if address.isEmpty then
        { enriched := { toCalendarEvent := event, geoLocation := none },
          calls := [], warns := [] }
      else
        let lookup := getLocationFromAddress geocoderFrom address
        { enriched := { toCalendarEvent := event, geoLocation := lookup.geoLocation },
          calls := lookup.calls, warns := lookup.warns }

/-- A calendar as returned by `Calendar.getCalendarsAsync`; only `id` is read. -/
structure CalendarInfo where
  id : String
  deriving Repr, DecidableEq

/-- The external services `fetchCalendarEvents` talks to. -/
structure FetchEnv where
  getCalendars : Except JsError (List CalendarInfo)
  getEvents : List String → JsDate → JsDate → Except JsError (List CalendarEvent)
  geocoderFrom : String → Except JsError GeoResponse

/-- `geocodedEvents.filter(event => event.geoLocation)` (line 146): a `LatLng`
object is always truthy and `null` is falsy, so the filter keeps exactly the
events with a non-null geo-location. This is the value passed to
`setCalendarEvents`. -/
def commitBatch (geocodedEvents : List EventWithLocation) : List EventWithLocation :=
  geocodedEvents.filter (fun event => event.geoLocation.isSome)

/-- Everything one run of `fetchCalendarEvents` did: the argument of the
`setCalendarEvents` call if one happened, the `Alert.alert` calls, the
intermediate enriched batch (`geocodedEvents`), the geocoder invocations,
the warnings, and the `getEventsAsync` query that was issued. -/
structure FetchResult where
  newEvents : Option (List EventWithLocation)
  alerts : List (String × String)
  geocodedBatch : Option (List EventWithLocation)
  geocodeCalls : List String
  warns : List (String × String)
  queriedRange : Option (List String × JsDate × JsDate)

/-- The catch block of `fetchCalendarEvents` (lines 149 to 155):
`Alert.alert` with the message of the error when it is an `Error` instance,
else with a generic unknown-error message. -/
def fetchErrorAlert : JsError → String × String
  | .error message => ("Error fetching calendar events:", message)
  | .other => ("Error fetching calendar events:", "An unknown error occurred.")

/-- `fetchCalendarEvents` (lines 130 to 156), with `startDate`/`endDate` the
values closed over from the render that created this call. The try block
queries the calendar list, then the events of all calendars in the range,
enriches every event (these per-event geocode lookups never throw: their
failures are caught inside `getLocationFromAddress`), filters out null
geo-locations and commits the result via `setCalendarEvents`. A throw from
either store query skips the commit and lands in the catch block. -/
def fetchCalendarEvents (env : FetchEnv) (startDate endDate : JsDate) : FetchResult :=
  match env.getCalendars with
  | .error err =>
      { newEvents := none, alerts := [fetchErrorAlert err], geocodedBatch := none,
        geocodeCalls := [], warns := [], queriedRange := none }
  | .ok calendars =>
      match env.getEvents (calendars.map (fun calendar => calendar.id)) startDate endDate with
      | .error err =>
          { newEvents := none, alerts := [fetchErrorAlert err], geocodedBatch := none,
            geocodeCalls := [], warns := [],
            queriedRange := some (calendars.map (fun calendar => calendar.id), startDate, endDate) }
      | .ok events =>
          let outs := events.map (enrichEvent env.geocoderFrom)
          let geocodedEvents := outs.map (fun o => o.enriched)
          { newEvents := some (commitBatch geocodedEvents),
            alerts := [],
            geocodedBatch := some geocodedEvents,
            geocodeCalls := (outs.map (fun o => o.calls)).flatten,
            warns := (outs.map (fun o => o.warns)).flatten,
            queriedRange := some (calendars.map (fun calendar => calendar.id), startDate, endDate) }

/-- The first error thrown by the store queries inside the try block of
`fetchCalendarEvents`, when there is one. -/
def fetchQueryError (env : FetchEnv) (startDate endDate : JsDate) : Option JsError :=
  match env.getCalendars with
  | .error err => some err
  | .ok calendars =>
      match env.getEvents (calendars.map (fun calendar => calendar.id)) startDate endDate with
      | .error err => some err
      | .ok _ => none

/-- Keep the elements whose key has not been seen yet, threading the set of
seen keys. Helper for `uniqBy`. -/
def uniqByKeyed {α β : Type} [DecidableEq β] (key : α → β) :
    List β → List α → List α
  | _, [] => []
  | seen, a :: rest =>
      if key a ∈ seen then uniqByKeyed key seen rest
      else a :: uniqByKeyed key (key a :: seen) rest

/-- lodash `uniqBy`: for every key, keep only the first element bearing it,
in order of first appearance. -/
def uniqBy {α β : Type} [DecidableEq β] (key : α → β) (l : List α) : List α :=
  uniqByKeyed key [] l

/-- `const uniqueCalendarEvents = uniqBy(calendarEvents, 'id')` (line 163). -/
def uniqueCalendarEvents (calendarEvents : List EventWithLocation) :
    List EventWithLocation :=
  uniqBy (fun event => event.id) calendarEvents

/-- The props of one rendered `Marker` (line 207): `key`, `coordinate`,
`title`, `description`. -/
structure MarkerView where
  key : String
  coordinate : LatLng
  title : String
  description : Option String
  deriving Repr, DecidableEq

/-- The `Marker` element built for an event with geo-location `geo`. -/
def markerOf (event : EventWithLocation) (geo : LatLng) : MarkerView :=
  { key := event.id, coordinate := geo, title := event.title,
    description := event.location }

/-- The JSX of the `MapView` children (lines 202 to 212): map over
`uniqueCalendarEvents`, emit a `Marker` when `geoLocation` is truthy and
`null` otherwise. -/
def renderedMarkers (calendarEvents : List EventWithLocation) : List MarkerView :=
  (uniqueCalendarEvents calendarEvents).filterMap
    (fun event => event.geoLocation.map (markerOf event))

/-- The events of the current state that get a `Marker` in the JSX. -/
def renderedMarkerEvents (calendarEvents : List EventWithLocation) :
    List EventWithLocation :=
  (uniqueCalendarEvents calendarEvents).filter
    (fun event => event.geoLocation.isSome)

/-- The map region state: center and zoom deltas. The numeric values are
never read by the logic under study; rationals keep the decimal defaults
representable. -/
structure Region where
  latitude : Rat
  longitude : Rat
  latitudeDelta : Rat
  longitudeDelta : Rat
  deriving Repr, DecidableEq

/-- The `useState` pieces of `CalendarMap` that the date handlers touch or
must leave alone. `datePickerType` holds the string values
`"start"` or `"end"`. -/
structure CMState where
  startDate : JsDate
  endDate : JsDate
  showDatePicker : Bool
  datePickerType : String
  region : Region
  calendarEvents : List EventWithLocation
  deriving Repr, DecidableEq

/-- `onStartDateChange` (lines 99 to 107), under React `useState` semantics:
inside the handler, `startDate` and `endDate` are the constants of the render
that created it; `setStartDate(selectedDate)` only affects the next render.
The `fetchCalendarEvents()` call therefore closes over the PRE-update
boundaries, and those are what `getEventsAsync` receives. With a defined
`selectedDate` the handler sets the new start date, hides the picker, and
runs one fetch; the commit of that fetch, when it happens, replaces
`calendarEvents`. With `selectedDate` undefined it only hides the picker. -/
def onStartDateChange (env : FetchEnv) (st : CMState)
    (selectedDate : Option JsDate) : CMState × List FetchResult :=
  match selectedDate with
  | some d =>
      let r := fetchCalendarEvents env st.startDate st.endDate
      ({ st with startDate := d, showDatePicker := false,
                 calendarEvents := r.newEvents.getD st.calendarEvents }, [r])
  | none => ({ st with showDatePicker := false }, [])

/-- `onEndDateChange` (lines 109 to 117), the mirror image of
`onStartDateChange`: same stale-closure reading of the boundaries. -/
def onEndDateChange (env : FetchEnv) (st : CMState)
    (selectedDate : Option JsDate) : CMState × List FetchResult :=
  match selectedDate with
  | some d =>
      let r := fetchCalendarEvents env st.startDate st.endDate
      ({ st with endDate := d, showDatePicker := false,
                 calendarEvents := r.newEvents.getD st.calendarEvents }, [r])
  | none => ({ st with showDatePicker := false }, [])

/-- Evidence that the module finished loading: the key `Geocoder.init`
received. Only after this value exists can any component render. -/
structure LoadedModule where
  geocoderKey : String
  deriving Repr, DecidableEq

/-- The module-level code of `CalendarMap.tsx` (lines 11 to 14): it runs
when the module loads, before `App` mounts anything. A falsy
`process.env.GOOGLE_MAPS_API_KEY` (absent or empty) throws, so neither
`Geocoder.init` nor any UI code is reached; otherwise the geocoder is
initialised with the key. -/
def moduleInit (googleMapsApiKey : Option String) : Except String LoadedModule :=
  if strTruthy googleMapsApiKey = false then
    Except.error "GOOGLE_MAPS_API_KEY environment variable is required."
  else
    Except.ok { geocoderKey := googleMapsApiKey.getD "" }

/-- The mobile platform the component runs on; `web` stands for any platform
that is neither iOS nor Android. -/
inductive OSPlatform where
  | ios
  | android
  | web
  deriving Repr, DecidableEq

/-- `Platform.select({ ios, android })`: the entry of the current platform,
`undefined` when the platform has no entry. -/
def platformSelect (platform : OSPlatform) (iosUrl androidUrl : String) :
    Option String :=
  match platform with
  | .ios => some iosUrl
  | .android => some androidUrl
  | .web => none

/-- An observable effect of `onMarkerPress`: a `console.log`, a
`Linking.openURL`, or an `Alert.alert`. -/
inductive MarkerEffect where
  | logged (message : String) (link : String)
  | openedURL (url : String)
  | alerted (message : String)
  deriving Repr, DecidableEq

/-- `onMarkerPress` (lines 165 to 187): nothing at all happens when
`eventId` is falsy (the empty string). Otherwise the link is logged, the
platform URL template is selected; an `undefined` template (platform
neither iOS nor Android) returns early, else the URL is opened when
`Linking.canOpenURL` allows it and an alert is shown when it does not. -/
def onMarkerPress (platform : OSPlatform) (canOpenURL : String → Bool)
    (event : EventWithLocation) : List MarkerEffect :=
  let eventId := event.id
  let calendarID := event.calendarId
  let calendarLink := calendarID ++ "&event=" ++ eventId
  if eventId.isEmpty then []
  else
    let logs := [MarkerEffect.logged "Opening calendar event:" calendarLink]
    match platformSelect platform ("calshow:" ++ calendarLink)
        ("content://com.android.calendar/events/" ++ calendarLink) with
    | none => logs
    | some eventUrl =>
        if canOpenURL eventUrl then logs ++ [MarkerEffect.openedURL eventUrl]
        else logs ++ [MarkerEffect.alerted "Unable to open the Calendar app."]

/-- The initial map region of the component (lines 23 to 28). -/
def initialRegion : Region :=
  { latitude := -8.5, longitude := 115.2, latitudeDelta := 0.1,
    longitudeDelta := 0.1 }

/-- A concrete event with no location text. -/
def evNoLocation : CalendarEvent :=
  { id := "2", calendarId := "cal", title := "no location", location := none }

/-- The enrichment of `evNoLocation`: geo-location null. -/
def evNoGeo : EventWithLocation :=
  { toCalendarEvent := evNoLocation, geoLocation := none }

/-- A concrete event with a geocodable location. -/
def evUbud : CalendarEvent :=
  { id := "1", calendarId := "cal", title := "retreat",
    location := some "Ubud, Bali" }

/-- The enrichment of `evUbud` under `geoOne`. -/
def evUbudGeo : EventWithLocation :=
  { toCalendarEvent := evUbud, geoLocation := some { latitude := 1, longitude := 2 } }

/-- A geocoder that resolves every address to one fixed candidate. -/
def geoOne : String → Except JsError GeoResponse :=
  fun _ => Except.ok { results := [{ geometryLocation := { lat := 1, lng := 2 } }] }

/-- A store with one calendar whose events in any range are
`[evUbud, evNoLocation]`, and the `geoOne` geocoder. -/
def envTwoEvents : FetchEnv :=
  { getCalendars := Except.ok [{ id := "cal" }],
    getEvents := fun _ _ _ => Except.ok [evUbud, evNoLocation],
    geocoderFrom := geoOne }

/-- A store whose only event has no location text. -/
def envNoLocation : FetchEnv :=
  { getCalendars := Except.ok [{ id := "cal" }],
    getEvents := fun _ _ _ => Except.ok [evNoLocation],
    geocoderFrom := geoOne }

/-- A store whose calendar-list query throws `new Error("boom")`. -/
def envBoom : FetchEnv :=
  { getCalendars := Except.error (JsError.error "boom"),
    getEvents := fun _ _ _ => Except.ok [],
    geocoderFrom := geoOne }

/-- A component state with boundaries 0 and 7 and the start picker open. -/
def stWeek : CMState :=
  { startDate := 0, endDate := 7, showDatePicker := true,
    datePickerType := "start", region := initialRegion, calendarEvents := [] }

/-- An event whose identifier is the empty string (JS-falsy). -/
def evNoId : EventWithLocation :=
  { toCalendarEvent := { id := "", calendarId := "cal", title := "t", location := none },
    geoLocation := some { latitude := 1, longitude := 2 } }

/-- `uniqByKeyed` returns a sublist of its input: retained elements keep
their relative order. -/
theorem uniqByKeyed_sublist {α β : Type} [DecidableEq β] (key : α → β)
    (seen : List β) (l : List α) : (uniqByKeyed key seen l).Sublist l := by
  induction l generalizing seen with
  | nil => simp [uniqByKeyed]
  | cons a rest ih =>
    simp only [uniqByKeyed]
    split
    · exact List.Sublist.cons a (ih seen)
    · exact List.Sublist.cons₂ a (ih (key a :: seen))

/-- Every element retained by `uniqByKeyed` has an unseen key and is the
first element of the input bearing its key. -/
theorem uniqByKeyed_find {α β : Type} [DecidableEq β] (key : α → β)
    (seen : List β) (l : List α) :
    ∀ e ∈ uniqByKeyed key seen l,
      key e ∉ seen ∧ l.find? (fun x => key x == key e) = some e := by
  induction l generalizing seen with
  | nil => intro e he; simp [uniqByKeyed] at he
  | cons a rest ih =>
    intro e he
    simp only [uniqByKeyed] at he
    by_cases h : key a ∈ seen
    · rw [if_pos h] at he
      obtain ⟨hnot, hfind⟩ := ih seen e he
      have hne : (key a == key e) = false := by
        simp only [beq_eq_false_iff_ne, ne_eq]
        intro hk
        exact hnot (hk ▸ h)
      exact ⟨hnot, by simp only [List.find?_cons, hne, cond_false]; exact hfind⟩
    · rw [if_neg h] at he
      rcases List.mem_cons.mp he with rfl | he2
      · exact ⟨h, by simp only [List.find?_cons, beq_self_eq_true, cond_true]⟩
      · obtain ⟨hnot, hfind⟩ := ih (key a :: seen) e he2
        have hne : (key a == key e) = false := by
          simp only [beq_eq_false_iff_ne, ne_eq]
          intro hk
          exact hnot (by simp [hk])
        refine ⟨fun hs => hnot (List.mem_cons_of_mem _ hs), ?_⟩
        simp only [List.find?_cons, hne, cond_false]
        exact hfind

/-- The keys of the list `uniqByKeyed` retains are pairwise distinct. -/
theorem uniqByKeyed_nodup {α β : Type} [DecidableEq β] (key : α → β)
    (seen : List β) (l : List α) :
    ((uniqByKeyed key seen l).map key).Nodup := by
  induction l generalizing seen with
  | nil => simp [uniqByKeyed]
  | cons a rest ih =>
    simp only [uniqByKeyed]
    split
    · exact ih seen
    case isFalse h =>
      simp only [List.map_cons, List.nodup_cons]
      refine ⟨?_, ih (key a :: seen)⟩
      intro hmem
      obtain ⟨e, he, hke⟩ := List.mem_map.mp hmem
      exact (uniqByKeyed_find key (key a :: seen) rest e he).1 (by simp [hke])

/-- Every key of the input either was already seen or is represented in the
output of `uniqByKeyed`. -/
theorem uniqByKeyed_covers {α β : Type} [DecidableEq β] (key : α → β)
    (seen : List β) (l : List α) :
    ∀ e ∈ l, key e ∈ seen ∨ ∃ e2 ∈ uniqByKeyed key seen l, key e2 = key e := by
  induction l generalizing seen with
  | nil => intro e he; simp at he
  | cons a rest ih =>
    intro e he
    simp only [uniqByKeyed]
    by_cases h : key a ∈ seen
    · rw [if_pos h]
      rcases List.mem_cons.mp he with rfl | he2
      · exact Or.inl h
      · exact ih seen e he2
    · rw [if_neg h]
      rcases List.mem_cons.mp he with rfl | he2
      · exact Or.inr ⟨e, List.mem_cons_self _ _, rfl⟩
      · rcases ih (key a :: seen) e he2 with hs | ⟨e2, hm, hk⟩
        · rcases List.mem_cons.mp hs with heq | hs2
          · exact Or.inr ⟨a, List.mem_cons_self _ _, heq.symm⟩
          · exact Or.inl hs2
        · exact Or.inr ⟨e2, List.mem_cons_of_mem _ hm, hk⟩

/-- Membership in `uniqBy key l` implies membership in `l`. -/
theorem uniqBy_subset {α β : Type} [DecidableEq β] (key : α → β) (l : List α) :
    ∀ e ∈ uniqBy key l, e ∈ l :=
  fun _ he => (uniqByKeyed_sublist key [] l).subset he

/-- Enriching an event with a present (non-empty) location string defers to
`getLocationFromAddress` on that string. -/
theorem enrichEvent_some {g : String → Except JsError GeoResponse}
    {event : CalendarEvent} {address : String}
    (hloc : event.location = some address) (haddr : address.isEmpty = false) :
    enrichEvent g event =
      { enriched :=
          { toCalendarEvent := event,
            geoLocation := (getLocationFromAddress g address).geoLocation },
        calls := (getLocationFromAddress g address).calls,
        warns := (getLocationFromAddress g address).warns } := by
  simp [enrichEvent, hloc, haddr]

/-- `getLocationFromAddress` invokes the geocoder exactly once, whatever the
outcome. -/
theorem getLocationFromAddress_calls (g : String → Except JsError GeoResponse)
    (address : String) : (getLocationFromAddress g address).calls = [address] := by
  unfold getLocationFromAddress
  cases g address with
  | error e => rfl
  | ok response =>
    obtain ⟨results⟩ := response
    cases results with
    | nil => rfl
    | cons r rest => rfl

/-- C2: for every enriched batch, the rendered marker set is the subset of
the batch with non-null geo-location, deduplicated so that only the first
occurrence per event identifier remains, in first-seen order; each surviving
event contributes exactly its own marker. -/
theorem C2_rendered_equals_dedup_filtered (batch : List EventWithLocation) :
    renderedMarkerEvents (commitBatch batch) =
      uniqBy (fun event => event.id)
        (batch.filter (fun event => event.geoLocation.isSome)) ∧
    renderedMarkers (commitBatch batch) =
      (uniqBy (fun event => event.id)
        (batch.filter (fun event => event.geoLocation.isSome))).filterMap
        (fun event => event.geoLocation.map (markerOf event)) := by
  have hall : ∀ e ∈ uniqBy (fun event => event.id)
      (batch.filter (fun event => event.geoLocation.isSome)),
      e.geoLocation.isSome = true := by
    intro e he
    have hmem := uniqBy_subset (fun event => event.id) _ e he
    exact (List.mem_filter.mp hmem).2
  constructor
  · unfold renderedMarkerEvents commitBatch uniqueCalendarEvents
    exact List.filter_eq_self.mpr hall
  · rfl

/-- C6: lodash `uniqBy` by identifier keeps a subsequence of the batch whose
entries are each the first occurrence of their identifier, with pairwise
distinct identifiers covering every identifier of the batch; in particular two
events sharing an identifier collapse to the first one. -/
theorem C6_dedup_first_occurrence (l : List EventWithLocation)
    (a b : EventWithLocation) :
    (uniqueCalendarEvents l).Sublist l ∧
    (∀ e ∈ uniqueCalendarEvents l,
      l.find? (fun x => x.id == e.id) = some e) ∧
    ((uniqueCalendarEvents l).map (fun e => e.id)).Nodup ∧
    (∀ e ∈ l, ∃ e2 ∈ uniqueCalendarEvents l, e2.id = e.id) ∧
    (a.id = b.id → uniqueCalendarEvents [a, b] = [a]) := by
  refine ⟨uniqByKeyed_sublist _ [] l, ?_, uniqByKeyed_nodup _ [] l, ?_, ?_⟩
  · intro e he
    have he2 : e ∈ uniqByKeyed (fun event : EventWithLocation => event.id) [] l := he
    exact (uniqByKeyed_find (fun event : EventWithLocation => event.id) [] l e he2).2
  · intro e he
    rcases uniqByKeyed_covers (fun event : EventWithLocation => event.id) [] l e he
        with hs | h2
    · simp at hs
    · exact h2
  · intro hab
    simp [uniqueCalendarEvents, uniqBy, uniqByKeyed, hab]

/-- C1 fails on the code: in the state with boundaries (0, 7), confirming the
new start date 3 in the picker triggers exactly one fetch, but that fetch
queries the calendar store with the stale closure boundaries (0, 7) — the
previous start together with the unchanged end — instead of (3, 7); the end
picker behaves symmetrically. The state does record the new boundary for the
next render, which is what makes the closure stale. -/
theorem C1_fetch_uses_stale_boundary :
    ((onStartDateChange envTwoEvents stWeek (some 3)).2.map
        (fun r => r.queriedRange) = [some (["cal"], 0, 7)]) ∧
    (onStartDateChange envTwoEvents stWeek (some 3)).1.startDate = 3 ∧
    ((onEndDateChange envTwoEvents stWeek (some 9)).2.map
        (fun r => r.queriedRange) = [some (["cal"], 0, 7)]) ∧
    (onEndDateChange envTwoEvents stWeek (some 9)).1.endDate = 9 :=
  ⟨rfl, rfl, rfl, rfl⟩

/-- C3 fails on the code: for a fetch whose enriched batch is `[evNoGeo]`
(one event, null geo-location), the committed event state is the empty list —
the null-geo event is excluded from the markers but does NOT remain in the
stored state, because the filter at line 146 runs before `setCalendarEvents`. -/
theorem C3_counterexample_not_kept :
    (fetchCalendarEvents envNoLocation 0 7).geocodedBatch = some [evNoGeo] ∧
    evNoGeo.geoLocation = none ∧
    (fetchCalendarEvents envNoLocation 0 7).newEvents = some [] :=
  ⟨rfl, rfl, rfl⟩

/-- C3 amended: after enrichment, every event whose geo-location is null is
excluded from the rendered marker set AND from the committed event state; the
state keeps only events with a non-null geo-location. -/
theorem C3_amended_null_geo_dropped (batch : List EventWithLocation)
    (e : EventWithLocation) (hnull : e.geoLocation = none) :
    e ∉ commitBatch batch ∧
    e ∉ renderedMarkerEvents (commitBatch batch) ∧
    ∀ e2 ∈ commitBatch batch, e2.geoLocation.isSome = true := by
  have hnone : e.geoLocation.isSome = false := by rw [hnull]; rfl
  refine ⟨?_, ?_, fun e2 he2 => (List.mem_filter.mp he2).2⟩
  · intro hmem
    have hsome := (List.mem_filter.mp hmem).2
    rw [hnone] at hsome
    simp at hsome
  · intro hmem
    have hsome := (List.mem_filter.mp hmem).2
    rw [hnone] at hsome
    simp at hsome

/-- Witness for the amended C3 at a concrete null-geo event. -/
theorem C3_amended_witness :
    evNoGeo.geoLocation = none ∧
    (evNoGeo ∉ commitBatch [evNoGeo] ∧
     evNoGeo ∉ renderedMarkerEvents (commitBatch [evNoGeo]) ∧
     ∀ e2 ∈ commitBatch [evNoGeo], e2.geoLocation.isSome = true) :=
  ⟨rfl, C3_amended_null_geo_dropped [evNoGeo] evNoGeo rfl⟩

/-- C4: when a store query inside `fetchCalendarEvents` throws, the alert
carries the message of the error when it is an `Error` instance and the
generic unknown-error text otherwise, and `setCalendarEvents` is never
reached, so the previously committed event set stays in place. -/
theorem C4_store_failure_alert_no_overwrite (env : FetchEnv)
    (startDate endDate : JsDate) (prior : List EventWithLocation)
    (err : JsError)
    (hfail : fetchQueryError env startDate endDate = some err) :
    (fetchCalendarEvents env startDate endDate).newEvents = none ∧
    (fetchCalendarEvents env startDate endDate).newEvents.getD prior = prior ∧
    (fetchCalendarEvents env startDate endDate).alerts = [fetchErrorAlert err] ∧
    (∀ message, err = JsError.error message →
      (fetchCalendarEvents env startDate endDate).alerts
        = [("Error fetching calendar events:", message)]) ∧
    (err = JsError.other →
      (fetchCalendarEvents env startDate endDate).alerts
        = [("Error fetching calendar events:", "An unknown error occurred.")]) := by
  cases hc : env.getCalendars with
  | error e =>
    simp only [fetchQueryError, hc] at hfail
    obtain rfl : e = err := Option.some.inj hfail
    refine ⟨by simp [fetchCalendarEvents, hc], by simp [fetchCalendarEvents, hc],
      by simp [fetchCalendarEvents, hc], ?_, ?_⟩
    · intro message hm
      subst hm
      simp [fetchCalendarEvents, hc, fetchErrorAlert]
    · intro hm
      subst hm
      simp [fetchCalendarEvents, hc, fetchErrorAlert]
  | ok calendars =>
    cases hev : env.getEvents (calendars.map (fun calendar => calendar.id))
        startDate endDate with
    | error e =>
      simp only [fetchQueryError, hc, hev] at hfail
      obtain rfl : e = err := Option.some.inj hfail
      refine ⟨by simp [fetchCalendarEvents, hc, hev],
        by simp [fetchCalendarEvents, hc, hev],
        by simp [fetchCalendarEvents, hc, hev], ?_, ?_⟩
      · intro message hm
        subst hm
        simp [fetchCalendarEvents, hc, hev, fetchErrorAlert]
      · intro hm
        subst hm
        simp [fetchCalendarEvents, hc, hev, fetchErrorAlert]
    | ok events =>
      simp only [fetchQueryError, hc, hev] at hfail
      exact absurd hfail (by simp)

/-- Witness for C4 at a store whose calendar query throws `Error("boom")`. -/
theorem C4_witness :
    fetchQueryError envBoom 0 7 = some (JsError.error "boom") ∧
    ((fetchCalendarEvents envBoom 0 7).newEvents = none ∧
     (fetchCalendarEvents envBoom 0 7).newEvents.getD [evUbudGeo] = [evUbudGeo] ∧
     (fetchCalendarEvents envBoom 0 7).alerts = [fetchErrorAlert (JsError.error "boom")] ∧
     (∀ message, JsError.error "boom" = JsError.error message →
       (fetchCalendarEvents envBoom 0 7).alerts
         = [("Error fetching calendar events:", message)]) ∧
     (JsError.error "boom" = JsError.other →
       (fetchCalendarEvents envBoom 0 7).alerts
         = [("Error fetching calendar events:", "An unknown error occurred.")])) :=
  ⟨rfl, C4_store_failure_alert_no_overwrite envBoom 0 7 [evUbudGeo]
    (JsError.error "boom") rfl⟩

/-- C5: an event whose location string is absent or empty is enriched without
any geocoder invocation and with a null geo-location. -/
theorem C5_absent_location_no_geocode
    (geocoderFrom : String → Except JsError GeoResponse)
    (event : CalendarEvent) (hfalsy : strTruthy event.location = false) :
    enrichEvent geocoderFrom event =
      { enriched := { toCalendarEvent := event, geoLocation := none },
        calls := [], warns := [] } := by
  cases hloc : event.location with
  | none => simp [enrichEvent, hloc]
  | some s =>
    rw [hloc] at hfalsy
    simp only [strTruthy, Bool.not_eq_false'] at hfalsy
    simp [enrichEvent, hloc, hfalsy]

/-- Witness for C5 at a concrete event with no location. -/
theorem C5_witness :
    strTruthy evNoLocation.location = false ∧
    enrichEvent geoOne evNoLocation =
      { enriched := { toCalendarEvent := evNoLocation, geoLocation := none },
        calls := [], warns := [] } :=
  ⟨rfl, C5_absent_location_no_geocode geoOne evNoLocation rfl⟩

/-- C7: an event with a present (non-empty) location string triggers exactly
one geocoder lookup, whose first returned candidate is taken as the
coordinate; a rejected lookup or an empty candidate list degrades that single
event to a null geo-location with only a warning logged; and with the store
queries succeeding the fetch cycle still commits a batch with no alert,
whatever the geocoder did. -/
theorem C7_one_lookup_first_candidate (env : FetchEnv)
    (startDate endDate : JsDate) (calendars : List CalendarInfo)
    (events : List CalendarEvent) (event : CalendarEvent) (address : String)
    (hc : env.getCalendars = Except.ok calendars)
    (hev : env.getEvents (calendars.map (fun calendar => calendar.id))
      startDate endDate = Except.ok events)
    (hloc : event.location = some address) (haddr : address.isEmpty = false) :
    (enrichEvent env.geocoderFrom event).calls = [address] ∧
    (∀ r rest,
      env.geocoderFrom address = Except.ok { results := r :: rest } →
      (enrichEvent env.geocoderFrom event).enriched.geoLocation =
        some { latitude := r.geometryLocation.lat,
               longitude := r.geometryLocation.lng }) ∧
    (∀ err, env.geocoderFrom address = Except.error err →
      (enrichEvent env.geocoderFrom event).enriched.geoLocation = none ∧
      (enrichEvent env.geocoderFrom event).warns =
        [("Error getting location from address:", address)]) ∧
    (env.geocoderFrom address = Except.ok { results := [] } →
      (enrichEvent env.geocoderFrom event).enriched.geoLocation = none ∧
      (enrichEvent env.geocoderFrom event).warns =
        [("Error getting location from address:", address)]) ∧
    (fetchCalendarEvents env startDate endDate).newEvents.isSome = true ∧
    (fetchCalendarEvents env startDate endDate).alerts = [] := by
  refine ⟨?_, ?_, ?_, ?_, ?_, ?_⟩
  · rw [enrichEvent_some hloc haddr]
    exact getLocationFromAddress_calls env.geocoderFrom address
  · intro r rest hresp
    rw [enrichEvent_some hloc haddr]
    simp [getLocationFromAddress, hresp]
  · intro err hresp
    rw [enrichEvent_some hloc haddr]
    simp [getLocationFromAddress, hresp]
  · intro hresp
    rw [enrichEvent_some hloc haddr]
    simp [getLocationFromAddress, hresp]
  · simp [fetchCalendarEvents, hc, hev]
  · simp [fetchCalendarEvents, hc, hev]

/-- Witness for C7 at the concrete store `envTwoEvents` and the event
`evUbud` whose location is "Ubud, Bali". -/
theorem C7_witness :
    (envTwoEvents.getCalendars = Except.ok [{ id := "cal" }] ∧
     envTwoEvents.getEvents
        (([{ id := "cal" }] : List CalendarInfo).map (fun calendar => calendar.id)) 0 7 =
       Except.ok [evUbud, evNoLocation] ∧
     evUbud.location = some "Ubud, Bali" ∧
     "Ubud, Bali".isEmpty = false) ∧
    ((enrichEvent envTwoEvents.geocoderFrom evUbud).calls = ["Ubud, Bali"] ∧
     (∀ r rest,
       envTwoEvents.geocoderFrom "Ubud, Bali" = Except.ok { results := r :: rest } →
       (enrichEvent envTwoEvents.geocoderFrom evUbud).enriched.geoLocation =
         some { latitude := r.geometryLocation.lat,
                longitude := r.geometryLocation.lng }) ∧
     (∀ err, envTwoEvents.geocoderFrom "Ubud, Bali" = Except.error err →
       (enrichEvent envTwoEvents.geocoderFrom evUbud).enriched.geoLocation = none ∧
       (enrichEvent envTwoEvents.geocoderFrom evUbud).warns =
         [("Error getting location from address:", "Ubud, Bali")]) ∧
     (envTwoEvents.geocoderFrom "Ubud, Bali" = Except.ok { results := [] } →
       (enrichEvent envTwoEvents.geocoderFrom evUbud).enriched.geoLocation = none ∧
       (enrichEvent envTwoEvents.geocoderFrom evUbud).warns =
         [("Error getting location from address:", "Ubud, Bali")]) ∧
     (fetchCalendarEvents envTwoEvents 0 7).newEvents.isSome = true ∧
     (fetchCalendarEvents envTwoEvents 0 7).alerts = []) :=
  ⟨⟨rfl, rfl, rfl, by decide⟩,
   C7_one_lookup_first_candidate envTwoEvents 0 7 [{ id := "cal" }]
     [evUbud, evNoLocation] evUbud "Ubud, Bali" rfl rfl rfl (by decide)⟩

/-- C8: with the geocoding API key absent from the process environment,
module evaluation throws the required-key error, so neither `Geocoder.init`
nor any UI rendering is reached. -/
theorem C8_missing_key_fails_fast :
    moduleInit none =
      Except.error "GOOGLE_MAPS_API_KEY environment variable is required." ∧
    ∀ loaded : LoadedModule, moduleInit none ≠ Except.ok loaded := by
  refine ⟨rfl, ?_⟩
  intro loaded h
  simp [moduleInit, strTruthy] at h

/-- C9: dismissing either picker with an undefined `selectedDate` leaves the
start date, end date, committed events, region and picker type unchanged and
triggers no fetch; only the picker-visibility flag is reset. -/
theorem C9_cancel_only_hides_picker (env : FetchEnv) (st : CMState) :
    onStartDateChange env st none = ({ st with showDatePicker := false }, []) ∧
    onEndDateChange env st none = ({ st with showDatePicker := false }, []) :=
  ⟨rfl, rfl⟩

/-- C10: a marker press with a falsy event identifier, or on a platform that
is neither iOS nor Android, opens no URL and shows no alert. -/
theorem C10_silent_noop (platform : OSPlatform) (canOpenURL : String → Bool)
    (event : EventWithLocation)
    (h : event.id = "" ∨ platform = OSPlatform.web) :
    (∀ url, MarkerEffect.openedURL url ∉ onMarkerPress platform canOpenURL event) ∧
    (∀ message,
      MarkerEffect.alerted message ∉ onMarkerPress platform canOpenURL event) := by
  rcases h with hid | hweb
  · have hempty : event.id.isEmpty = true := by rw [hid]; rfl
    constructor <;> intro x hmem <;> simp [onMarkerPress, hempty] at hmem
  · subst hweb
    by_cases hempty : event.id.isEmpty = true
    · constructor <;> intro x hmem <;> simp [onMarkerPress, hempty] at hmem
    · rw [Bool.not_eq_true] at hempty
      constructor <;> intro x hmem <;>
        simp [onMarkerPress, hempty, platformSelect] at hmem

/-- Witness for C10 at a concrete event with an empty identifier. -/
theorem C10_witness :
    (evNoId.id = "" ∨ OSPlatform.ios = OSPlatform.web) ∧
    ((∀ url, MarkerEffect.openedURL url ∉
        onMarkerPress OSPlatform.ios (fun _ => true) evNoId) ∧
     (∀ message, MarkerEffect.alerted message ∉
        onMarkerPress OSPlatform.ios (fun _ => true) evNoId)) :=
  ⟨Or.inl rfl,
   C10_silent_noop OSPlatform.ios (fun _ => true) evNoId (Or.inl rfl)⟩
